import Mathlib

/-!
Verification development for the callback bridge and subsetting builder of
the `harfbuzz_rs` repository (files `src/font_funcs.rs` and `src/subset.rs`).

The data model and every operation under test are shallowly embedded from
the Rust source.  Machine integers are modelled as `Int`/`Nat`; fallible
results as `Option`; a Rust closure that may panic is modelled by a value
of `ClosureResult` (its normal return, or the fact that it panicked), so
that the `panic::catch_unwind` barrier of the marshaling macro becomes an
ordinary `match`.

Parts of the repository that the two source files call but that live in
modules not present here (notably `Font`, `Font::parent`, and the
`parent_scale_*` helpers of `font.rs`, and the native HarfBuzz collaborator
functions) are modelled from the specification's words; each such
definition carries a doc comment starting with `Modelled from the spec:`.
-/

namespace HB

/-- Position is the `Position` type of the crate: a signed fixed-point
distance (`i32` in the source), modelled as `Int`. -/
abbrev Position := Int

/-- Glyph is the opaque 32-bit unsigned glyph identifier, modelled as `Nat`. -/
abbrev Glyph := Nat

/-- FontExtents mirrors the `FontExtents` record used by the source:
ascender, descender and line gap, in signed distance units. -/
structure FontExtents where
  ascender : Position
  descender : Position
  line_gap : Position
deriving DecidableEq

/-- GlyphExtents mirrors the `GlyphExtents` record of the source: the
bounding box of a glyph outline. -/
structure GlyphExtents where
  x_bearing : Position
  y_bearing : Position
  width : Position
  height : Position
deriving DecidableEq

/-- Modelled from the spec: the results of the public metric queries of a
parent `Font` (`Font::get_font_h_extents` and friends live in the
repository's `font.rs`, which is not among the given source files).  The
default trait bodies of `font_funcs.rs` consume these queries as an
oracle, so they are modelled as plain fields. -/
structure FontQueries where
  font_h_extents : Option FontExtents
  font_v_extents : Option FontExtents
  nominal_glyph : Char → Option Glyph
  variation_glyph : Char → Char → Option Glyph
  glyph_h_advance : Glyph → Position
  glyph_v_advance : Glyph → Position
  glyph_h_origin : Glyph → Option (Position × Position)
  glyph_v_origin : Glyph → Option (Position × Position)
  glyph_extents : Glyph → Option GlyphExtents
  glyph_contour_point : Glyph → Nat → Option (Position × Position)
  glyph_name : Glyph → Option String
  glyph_from_name : String → Option Glyph

/-- Modelled from the spec: a parent font, carrying its own scale factors
and the results of its public queries. -/
structure ParentFont where
  x_scale : Int
  y_scale : Int
  queries : FontQueries

/-- Modelled from the spec: a `Font` is bound to scale factors and an
optional parent font (`font.rs` is not among the given source files; the
spec's data model lists exactly these attributes). -/
structure Font where
  x_scale : Int
  y_scale : Int
  parent : Option ParentFont

/-- Modelled from the spec: `Font::parent_scale_x_distance` of the
repository's `font.rs`.  The spec states that the transform multiplies
each axis value by this font's scale factor relative to the parent's
scale; with no parent a query reports the "no data" sentinel `0`. -/
def Font.parent_scale_x_distance (font : Font) (f : ParentFont → Position) : Position :=
  match font.parent with
  | some parent => f parent * font.x_scale / parent.x_scale
  | none => 0

/-- Modelled from the spec: `Font::parent_scale_y_distance` of the
repository's `font.rs`; y-axis analogue of the x-axis transform. -/
def Font.parent_scale_y_distance (font : Font) (f : ParentFont → Position) : Position :=
  match font.parent with
  | some parent => f parent * font.y_scale / parent.y_scale
  | none => 0

/-- Modelled from the spec: `Font::parent_scale_position` of the
repository's `font.rs`: a coordinate pair is scaled componentwise, the
first component by the x-axis ratio and the second by the y-axis ratio.
The default trait bodies only apply it when a parent exists. -/
def Font.parent_scale_position (font : Font) (v : Position × Position) : Position × Position :=
  match font.parent with
  | some parent => (v.1 * font.x_scale / parent.x_scale, v.2 * font.y_scale / parent.y_scale)
  | none => (0, 0)

/-- Default body of `FontFuncs::get_font_h_extents` (src/font_funcs.rs,
lines 55-64): delegate to the parent's horizontal extents and rescale
ascender, descender and line gap by the y-axis ratio. -/
def default_get_font_h_extents (font : Font) : Option FontExtents :=
  match font.parent with
  | none => none
  | some p =>
    p.queries.font_h_extents.map fun extents =>
      { extents with
        ascender := font.parent_scale_y_distance fun _ => extents.ascender
        descender := font.parent_scale_y_distance fun _ => extents.descender
        line_gap := font.parent_scale_y_distance fun _ => extents.line_gap }

/-- Default body of `FontFuncs::get_font_v_extents` (lines 65-74). -/
def default_get_font_v_extents (font : Font) : Option FontExtents :=
  match font.parent with
  | none => none
  | some p =>
    p.queries.font_v_extents.map fun extents =>
      { extents with
        ascender := font.parent_scale_y_distance fun _ => extents.ascender
        descender := font.parent_scale_y_distance fun _ => extents.descender
        line_gap := font.parent_scale_y_distance fun _ => extents.line_gap }

/-- Default body of `FontFuncs::get_nominal_glyph` (lines 75-77):
unscaled delegation to the parent. -/
def default_get_nominal_glyph (font : Font) (unicode : Char) : Option Glyph :=
  match font.parent with
  | none => none
  | some p => p.queries.nominal_glyph unicode

/-- Default body of `FontFuncs::get_variation_glyph` (lines 78-85). -/
def default_get_variation_glyph (font : Font) (unicode variation_sel : Char) : Option Glyph :=
  match font.parent with
  | none => none
  | some p => p.queries.variation_glyph unicode variation_sel

/-- Default body of `FontFuncs::get_glyph_h_advance` (lines 86-88): the
parent's advance, rescaled along the x axis. -/
def default_get_glyph_h_advance (font : Font) (glyph : Glyph) : Position :=
  font.parent_scale_x_distance fun parent => parent.queries.glyph_h_advance glyph

/-- Default body of `FontFuncs::get_glyph_v_advance` (lines 89-91). -/
def default_get_glyph_v_advance (font : Font) (glyph : Glyph) : Position :=
  font.parent_scale_y_distance fun parent => parent.queries.glyph_v_advance glyph

/-- Default body of `FontFuncs::get_glyph_h_origin` (lines 92-96). -/
def default_get_glyph_h_origin (font : Font) (glyph : Glyph) : Option (Position × Position) :=
  match font.parent with
  | none => none
  | some p => (p.queries.glyph_h_origin glyph).map fun x => font.parent_scale_position x

/-- Default body of `FontFuncs::get_glyph_v_origin` (lines 97-101). -/
def default_get_glyph_v_origin (font : Font) (glyph : Glyph) : Option (Position × Position) :=
  match font.parent with
  | none => none
  | some p => (p.queries.glyph_v_origin glyph).map fun x => font.parent_scale_position x

/-- Default body of `FontFuncs::get_glyph_extents` (lines 102-111):
x_bearing and width rescaled along the x axis, y_bearing and height along
the y axis. -/
def default_get_glyph_extents (font : Font) (glyph : Glyph) : Option GlyphExtents :=
  match font.parent with
  | none => none
  | some p =>
    (p.queries.glyph_extents glyph).map fun extents =>
      { x_bearing := font.parent_scale_x_distance fun _ => extents.x_bearing
        y_bearing := font.parent_scale_y_distance fun _ => extents.y_bearing
        width := font.parent_scale_x_distance fun _ => extents.width
        height := font.parent_scale_y_distance fun _ => extents.height }

/-- Default body of `FontFuncs::get_glyph_contour_point` (lines 112-121). -/
def default_get_glyph_contour_point (font : Font) (glyph : Glyph) (point_index : Nat) :
    Option (Position × Position) :=
  match font.parent with
  | none => none
  | some p =>
    (p.queries.glyph_contour_point glyph point_index).map fun x => font.parent_scale_position x

/-- Default body of `FontFuncs::get_glyph_name` (lines 122-124). -/
def default_get_glyph_name (font : Font) (glyph : Glyph) : Option String :=
  match font.parent with
  | none => none
  | some p => p.queries.glyph_name glyph

/-- Default body of `FontFuncs::get_glyph_from_name` (lines 125-127). -/
def default_get_glyph_from_name (font : Font) (name : String) : Option Glyph :=
  match font.parent with
  | none => none
  | some p => p.queries.glyph_from_name name

/-- Outcome of invoking a user closure: either its return value, or the
fact that the closure body panicked.  The `panic::catch_unwind` barrier of
the `hb_callback!` macro observes exactly this distinction. -/
inductive ClosureResult (α : Type) where
  | ok (value : α)
  | panicked
deriving DecidableEq

/-- Encoding step shared by the glyph-returning thunks: write the glyph to
the out-parameter and return `1` when the closure produced one, else
return `0`; a panic is converted by the barrier to the `hb_bool_t`
default `0` with the out-parameter untouched.  The second component
models the out-parameter: `some g` when `*glyph = g` was executed. -/
def encode_glyph_result : ClosureResult (Option Glyph) → Int × Option Glyph
  | .ok (some g) => (1, some g)
  | .ok none => (0, none)
  | .panicked => (0, none)

/-- Thunk `rust_get_font_extents_closure` (src/font_funcs.rs, lines
162-173), instantiated by the `hb_callback!` macro: the closure takes no
query argument beyond font and data, so its invocation is modelled by its
result.  The second component models the `*metrics` out-parameter. -/
def rust_get_font_extents_closure (closure : ClosureResult (Option FontExtents)) :
    Int × Option FontExtents :=
  match closure with
  | .ok (some extents) => (1, some extents)
  | .ok none => (0, none)
  | .panicked => (0, none)

/-- Decoding of a `u32` codepoint argument via `std::char::from_u32`:
succeeds exactly on Unicode scalar values (not a surrogate, at most
`0x10FFFF`). -/
def char_from_u32 (u : Nat) : Option Char :=
  if h : u.isValidChar then some (Char.ofNatAux u h) else none

/-- Thunk `rust_get_nominal_glyph_closure` (lines 175-195): decode the
codepoint, returning `0` early when it is not a Unicode scalar value,
then invoke the closure and encode its optional glyph. -/
def rust_get_nominal_glyph_closure (closure : Char → ClosureResult (Option Glyph))
    (unicode : Nat) : Int × Option Glyph :=
  match char_from_u32 unicode with
  | none => (0, none)
  | some character => encode_glyph_result (closure character)

/-- Thunk `rust_get_variation_glyph_closure` (lines 197-223): decode the
codepoint and then the variation selector, each returning `0` early when
invalid, then invoke the closure. -/
def rust_get_variation_glyph_closure (closure : Char → Char → ClosureResult (Option Glyph))
    (unicode variation_selector : Nat) : Int × Option Glyph :=
  match char_from_u32 unicode with
  | none => (0, none)
  | some character =>
    match char_from_u32 variation_selector with
    | none => (0, none)
    | some selector => encode_glyph_result (closure character selector)

/-- Thunk `rust_get_glyph_advance_closure` (lines 225-230): the closure's
`Position` is returned directly; a panic becomes `Default::default()`,
which is `0` for `Position`. -/
def rust_get_glyph_advance_closure (closure : ClosureResult Position) : Position :=
  match closure with
  | .ok pos => pos
  | .panicked => 0

/-- Thunk `rust_get_glyph_origin_closure` (lines 232-251).  The second
component models the `*x`/`*y` out-parameters. -/
def rust_get_glyph_origin_closure (closure : ClosureResult (Option (Position × Position))) :
    Int × Option (Position × Position) :=
  match closure with
  | .ok (some xy) => (1, some xy)
  | .ok none => (0, none)
  | .panicked => (0, none)

/-- Thunk `rust_get_glyph_extents_closure` (lines 253-269). -/
def rust_get_glyph_extents_closure (closure : ClosureResult (Option GlyphExtents)) :
    Int × Option GlyphExtents :=
  match closure with
  | .ok (some result) => (1, some result)
  | .ok none => (0, none)
  | .panicked => (0, none)

/-- Thunk `rust_get_glyph_contour_point_closure` (lines 271-291). -/
def rust_get_glyph_contour_point_closure
    (closure : ClosureResult (Option (Position × Position))) :
    Int × Option (Position × Position) :=
  match closure with
  | .ok (some xy) => (1, some xy)
  | .ok none => (0, none)
  | .panicked => (0, none)

/-- Translation of `CString::new` on the byte content of a Rust string:
fails exactly when the bytes contain an interior nul, and otherwise
appends the terminating nul byte. -/
def cstring_new_bytes (s : List Nat) : Option (List Nat) :=
  if s.contains 0 then none else some (s ++ [0])

/-- Thunk `rust_get_glyph_name_closure` (lines 293-313).  `buf` is the
engine-supplied output buffer of `size` bytes (its initial contents);
the result pairs the returned `hb_bool_t` with the final buffer contents.
The model follows the source exactly:
the closure's string is converted by `CString::new`; `write_all` on a
`&mut [u8]` copies as many bytes as fit and advances the slice, erring
when the data does not fit; on the failure path `name[0] = 0` acts on the
advanced slice, and when that slice is empty the indexing panics, which
the `catch_unwind` barrier converts to the return value `0`. -/
def rust_get_glyph_name_closure (buf : List Nat)
    (closure : ClosureResult (Option (List Nat))) : Int × List Nat :=
  match closure with
  | .panicked => (0, buf)
  | .ok value =>
    match value.bind cstring_new_bytes with
    | some bytes =>
      if bytes.length ≤ buf.length then
        (1, bytes ++ buf.drop bytes.length)
      else
        (0, bytes.take buf.length)
    | none =>
      match buf with
      | [] => (0, [])
      | _ :: rest => (0, 0 :: rest)

/-- Continuation-byte test of the UTF-8 validation (`0x80..=0xBF`). -/
def isCont (b : Nat) : Bool :=
  0x80 ≤ b && b ≤ 0xBF

/-- Byte-level UTF-8 validity, as checked by `CStr::to_str` and
`std::str::from_utf8` (RFC 3629: no overlong forms, no surrogates,
at most `0x10FFFF`). -/
def isValidUtf8 : List Nat → Bool
  | [] => true
  | b :: rest =>
    if b < 0x80 then isValidUtf8 rest
    else
      match rest with
      | [] => false
      | b1 :: rest1 =>
        if 0xC2 ≤ b && b ≤ 0xDF then isCont b1 && isValidUtf8 rest1
        else
          match rest1 with
          | [] => false
          | b2 :: rest2 =>
            if b == 0xE0 then
              (0xA0 ≤ b1 && b1 ≤ 0xBF) && isCont b2 && isValidUtf8 rest2
            else if (0xE1 ≤ b && b ≤ 0xEC) || b == 0xEE || b == 0xEF then
              isCont b1 && isCont b2 && isValidUtf8 rest2
            else if b == 0xED then
              (0x80 ≤ b1 && b1 ≤ 0x9F) && isCont b2 && isValidUtf8 rest2
            else
              match rest2 with
              | [] => false
              | b3 :: rest3 =>
                if b == 0xF0 then
                  (0x90 ≤ b1 && b1 ≤ 0xBF) && isCont b2 && isCont b3 && isValidUtf8 rest3
                else if 0xF1 ≤ b && b ≤ 0xF3 then
                  isCont b1 && isCont b2 && isCont b3 && isValidUtf8 rest3
                else if b == 0xF4 then
                  (0x80 ≤ b1 && b1 ≤ 0x8F) && isCont b2 && isCont b3 && isValidUtf8 rest3
                else false

/-- Bytes read by `CStr::from_ptr`: the memory contents up to (excluding)
the first nul byte. -/
def cstr_bytes (mem : List Nat) : List Nat :=
  mem.takeWhile fun b => b ≠ 0

/-- Thunk `rust_get_glyph_from_name_closure` (lines 315-345).  `mem` is
the byte contents of the memory behind the `name` pointer, `size` the
`i32` length argument.  `size = -1` reads a null-terminated string;
`size ≥ 1` reads exactly `size` bytes; any other size yields `None`,
which makes the thunk return `0` before the closure is invoked.  A string
that is not valid UTF-8 likewise yields `None`. -/
def rust_get_glyph_from_name_closure (closure : List Nat → ClosureResult (Option Glyph))
    (mem : List Nat) (size : Int) : Int × Option Glyph :=
  let string : Option (List Nat) :=
    if size = -1 then
      if isValidUtf8 (cstr_bytes mem) then some (cstr_bytes mem) else none
    else if 1 ≤ size then
      if isValidUtf8 (mem.take size.toNat) then some (mem.take size.toNat) else none
    else none
  match string with
  | none => (0, none)
  | some s => encode_glyph_result (closure s)

/-- Trait `FontFuncs` (src/font_funcs.rs, lines 54-128): the 12 metric
queries of the capability interface, with the parent-delegating default
bodies embedded above. -/
class FontFuncs (T : Type) where
  get_font_h_extents : T → Font → Option FontExtents :=
    fun _ font => default_get_font_h_extents font
  get_font_v_extents : T → Font → Option FontExtents :=
    fun _ font => default_get_font_v_extents font
  get_nominal_glyph : T → Font → Char → Option Glyph :=
    fun _ font unicode => default_get_nominal_glyph font unicode
  get_variation_glyph : T → Font → Char → Char → Option Glyph :=
    fun _ font unicode variation_sel => default_get_variation_glyph font unicode variation_sel
  get_glyph_h_advance : T → Font → Glyph → Position :=
    fun _ font glyph => default_get_glyph_h_advance font glyph
  get_glyph_v_advance : T → Font → Glyph → Position :=
    fun _ font glyph => default_get_glyph_v_advance font glyph
  get_glyph_h_origin : T → Font → Glyph → Option (Position × Position) :=
    fun _ font glyph => default_get_glyph_h_origin font glyph
  get_glyph_v_origin : T → Font → Glyph → Option (Position × Position) :=
    fun _ font glyph => default_get_glyph_v_origin font glyph
  get_glyph_extents : T → Font → Glyph → Option GlyphExtents :=
    fun _ font glyph => default_get_glyph_extents font glyph
  get_glyph_contour_point : T → Font → Glyph → Nat → Option (Position × Position) :=
    fun _ font glyph point_index => default_get_glyph_contour_point font glyph point_index
  get_glyph_name : T → Font → Glyph → Option String :=
    fun _ font glyph => default_get_glyph_name font glyph
  get_glyph_from_name : T → Font → String → Option Glyph :=
    fun _ font name => default_get_glyph_from_name font name

/-- Modelled from the spec: the callback table `FontFuncsImpl<T>`
(src/font_funcs.rs, lines 390-393) is a native reference-counted object;
the spec describes it as holding one optional closure (with its owned
user data) per slot, so it is modelled as a record of 12 optional typed
closures.  The native `hb_font_funcs_set_*_func` collaborators replace
the stored closure of one slot. -/
structure FontFuncsImpl (T : Type) where
  font_h_extents_func : Option (Font → T → Option FontExtents)
  font_v_extents_func : Option (Font → T → Option FontExtents)
  nominal_glyph_func : Option (Font → T → Char → Option Glyph)
  variation_glyph_func : Option (Font → T → Char → Char → Option Glyph)
  glyph_h_advance_func : Option (Font → T → Glyph → Position)
  glyph_v_advance_func : Option (Font → T → Glyph → Position)
  glyph_h_origin_func : Option (Font → T → Glyph → Option (Position × Position))
  glyph_v_origin_func : Option (Font → T → Glyph → Option (Position × Position))
  glyph_extents_func : Option (Font → T → Glyph → Option GlyphExtents)
  glyph_contour_point_func : Option (Font → T → Glyph → Nat → Option (Position × Position))
  glyph_name_func : Option (Font → T → Glyph → Option String)
  glyph_from_name_func : Option (Font → T → String → Option Glyph)

/-- Constructor `FontFuncsImpl::new` (lines 456-458): a freshly created
table has no slot populated. -/
def FontFuncsImpl.new (T : Type) : FontFuncsImpl T :=
  ⟨none, none, none, none, none, none, none, none, none, none, none, none⟩

/-- Setter `set_font_h_extents_func` (lines 460-473): stores the closure
in the font-h-extents slot of the native table. -/
def FontFuncsImpl.set_font_h_extents_func (ffuncs : FontFuncsImpl T)
    (func : Font → T → Option FontExtents) : FontFuncsImpl T :=
  { ffuncs with font_h_extents_func := some func }

/-- Setter `set_font_v_extents_func` (lines 475-488). -/
def FontFuncsImpl.set_font_v_extents_func (ffuncs : FontFuncsImpl T)
    (func : Font → T → Option FontExtents) : FontFuncsImpl T :=
  { ffuncs with font_v_extents_func := some func }

/-- Setter `set_nominal_glyph_func` (lines 490-503). -/
def FontFuncsImpl.set_nominal_glyph_func (ffuncs : FontFuncsImpl T)
    (func : Font → T → Char → Option Glyph) : FontFuncsImpl T :=
  { ffuncs with nominal_glyph_func := some func }

/-- Setter `set_variation_glyph_func` (lines 505-518). -/
def FontFuncsImpl.set_variation_glyph_func (ffuncs : FontFuncsImpl T)
    (func : Font → T → Char → Char → Option Glyph) : FontFuncsImpl T :=
  { ffuncs with variation_glyph_func := some func }

/-- Setter `set_glyph_h_advance_func` (lines 520-533). -/
def FontFuncsImpl.set_glyph_h_advance_func (ffuncs : FontFuncsImpl T)
    (func : Font → T → Glyph → Position) : FontFuncsImpl T :=
  { ffuncs with glyph_h_advance_func := some func }

/-- Setter `set_glyph_v_advance_func` (lines 535-548). -/
def FontFuncsImpl.set_glyph_v_advance_func (ffuncs : FontFuncsImpl T)
    (func : Font → T → Glyph → Position) : FontFuncsImpl T :=
  { ffuncs with glyph_v_advance_func := some func }

/-- Setter `set_glyph_h_origin_func` (lines 550-563). -/
def FontFuncsImpl.set_glyph_h_origin_func (ffuncs : FontFuncsImpl T)
    (func : Font → T → Glyph → Option (Position × Position)) : FontFuncsImpl T :=
  { ffuncs with glyph_h_origin_func := some func }

/-- Setter `set_glyph_v_origin_func` (lines 565-578). -/
def FontFuncsImpl.set_glyph_v_origin_func (ffuncs : FontFuncsImpl T)
    (func : Font → T → Glyph → Option (Position × Position)) : FontFuncsImpl T :=
  { ffuncs with glyph_v_origin_func := some func }

/-- Setter `set_glyph_extents_func` (lines 580-593). -/
def FontFuncsImpl.set_glyph_extents_func (ffuncs : FontFuncsImpl T)
    (func : Font → T → Glyph → Option GlyphExtents) : FontFuncsImpl T :=
  { ffuncs with glyph_extents_func := some func }

/-- Setter `set_glyph_contour_point_func` (lines 595-608). -/
def FontFuncsImpl.set_glyph_contour_point_func (ffuncs : FontFuncsImpl T)
    (func : Font → T → Glyph → Nat → Option (Position × Position)) : FontFuncsImpl T :=
  { ffuncs with glyph_contour_point_func := some func }

/-- Setter `set_glyph_name_func` (lines 610-623). -/
def FontFuncsImpl.set_glyph_name_func (ffuncs : FontFuncsImpl T)
    (func : Font → T → Glyph → Option String) : FontFuncsImpl T :=
  { ffuncs with glyph_name_func := some func }

/-- Setter `set_glyph_from_name_func` (lines 625-638). -/
def FontFuncsImpl.set_glyph_from_name_func (ffuncs : FontFuncsImpl T)
    (func : Font → T → String → Option Glyph) : FontFuncsImpl T :=
  { ffuncs with glyph_from_name_func := some func }

/-- Method `set_trait_impl` (lines 435-452): populate all 12 slots with
closures that forward to the corresponding trait method on the data. -/
def FontFuncsImpl.set_trait_impl (ffuncs : FontFuncsImpl T) [FontFuncs T] : FontFuncsImpl T :=
  (((((((((((ffuncs.set_font_h_extents_func
    fun font data => FontFuncs.get_font_h_extents data font).set_font_v_extents_func
    fun font data => FontFuncs.get_font_v_extents data font).set_nominal_glyph_func
    fun font data chr => FontFuncs.get_nominal_glyph data font chr).set_variation_glyph_func
    fun font data chr var => FontFuncs.get_variation_glyph data font chr var).set_glyph_h_advance_func
    fun font data glyph => FontFuncs.get_glyph_h_advance data font glyph).set_glyph_v_advance_func
    fun font data glyph => FontFuncs.get_glyph_v_advance data font glyph).set_glyph_h_origin_func
    fun font data glyph => FontFuncs.get_glyph_h_origin data font glyph).set_glyph_v_origin_func
    fun font data glyph => FontFuncs.get_glyph_v_origin data font glyph).set_glyph_extents_func
    fun font data glyph => FontFuncs.get_glyph_extents data font glyph).set_glyph_contour_point_func
    fun font data glyph index => FontFuncs.get_glyph_contour_point data font glyph index).set_glyph_name_func
    fun font data glyph => FontFuncs.get_glyph_name data font glyph).set_glyph_from_name_func
    fun font data name => FontFuncs.get_glyph_from_name data font name

/-- Constructor `from_trait_impl` (lines 429-433): a fresh table with the
trait forwarding closures installed. -/
def FontFuncsImpl.from_trait_impl (T : Type) [FontFuncs T] : FontFuncsImpl T :=
  (FontFuncsImpl.new T).set_trait_impl

/-- Variation mirrors the crate's `Variation`: a 4-byte axis tag (here a
`Nat`) and the value to set the axis to.  The value (an `f32` in the
source) is only ever passed through unchanged by the code under test, so
it is modelled as `Int`. -/
structure Variation where
  tag : Nat
  value : Int
deriving DecidableEq

/-- Axis record delivered by the native `hb_ot_var_get_axis_infos`
(`hb_ot_var_axis_info_t`): only the tag and the declared default value
are consumed by the code under test. -/
structure AxisInfo where
  tag : Nat
  default_value : Int
deriving DecidableEq

/-- Lookup in the `set_variations_lookup` hash map built by `subset`
(src/subset.rs, lines 14-17): the variations are inserted in order, a
later insert for the same tag overwriting an earlier one, and the map is
then queried by tag. -/
def variationsLookup (variations : List Variation) (tag : Nat) : Option Int :=
  variations.foldl (fun acc v => if v.tag = tag then some v.value else acc) none

/-- Axis-pinning loop of `subset` (src/subset.rs, lines 47-57): for every
axis of the face, in face order, either `hb_subset_input_pin_axis_location`
with the looked-up value, or `hb_subset_input_pin_axis_to_default`.
Modelled from the spec: the native pin-to-default collaborator pins the
axis to its declared default value, so the resulting configuration is a
list of (tag, pinned value) pairs. -/
def pinAxes (axes : List AxisInfo) (variations : List Variation) : List (Nat × Int) :=
  axes.map fun axis =>
    match variationsLookup variations axis.tag with
    | some value => (axis.tag, value)
    | none => (axis.tag, axis.default_value)

/-- Subsetter flags set by `subset` (src/subset.rs, lines 24-30). -/
inductive SubsetFlag where
  | retainGids
  | nameLegacy
  | glyphNames
  | noPruneUnicodeRanges
deriving DecidableEq

/-- Configuration object handed to the native subsetting operation: the
flags, the retained glyph set, and the pinned axes. -/
structure SubsetInput where
  flags : List SubsetFlag
  glyphs : List Nat
  pins : List (Nat × Int)

/-- Modelled from the spec: the native subsetting collaborator.  `axes`
is what `hb_ot_var_get_axis_infos` reports for the source face;
`run` is `hb_subset_or_fail`, which returns the subsetted face (here
already serialized to its blob bytes) or fails (`none`, the null
pointer). -/
structure NativeSubsetter where
  axes : List AxisInfo
  run : SubsetInput → Option (List Nat)

/-- Modelled from the spec: `hb_face_reference_blob` applied to the raw
result of `hb_subset_or_fail`; on the failure (null) result it yields the
empty blob rather than signalling anything. -/
def face_reference_blob : Option (List Nat) → List Nat
  | some bytes => bytes
  | none => []

/-- Outcome type that makes the spec's "explicit error result" statable:
a returned byte sequence, or an explicit error.  The source function's
return type `Vec<u8>` corresponds to the `blob` constructor. -/
inductive SubsetOutcome where
  | blob (bytes : List Nat)
  | error
deriving DecidableEq

/-- Function `subset` (src/subset.rs, lines 11-69): build the input
(flags, codepoints, pinned axes), run the native subsetting operation,
and return the blob bytes of whatever face results.  The Rust signature
returns `Vec<u8>`, so the translation only ever produces the `blob`
outcome. -/
def subset (native : NativeSubsetter) (codepoints : List Nat) (variations : List Variation) :
    SubsetOutcome :=
  let input : SubsetInput :=
    { flags := [.retainGids, .nameLegacy, .glyphNames, .noPruneUnicodeRanges]
      glyphs := codepoints
      pins := pinAxes native.axes variations }
  SubsetOutcome.blob (face_reference_blob (native.run input))

/-- C2: for every Font whose parent is absent, the default `FontFuncs`
trait method bodies report "no data" for every query: the nine
`Option`-returning queries give `none` and the two advance queries give
the sentinel `0`, for all inputs. -/
theorem orphan_font_defaults_give_no_data (font : Font) (h : font.parent = none)
    (unicode variation_sel : Char) (glyph : Glyph) (point_index : Nat) (name : String) :
    default_get_font_h_extents font = none ∧
    default_get_font_v_extents font = none ∧
    default_get_nominal_glyph font unicode = none ∧
    default_get_variation_glyph font unicode variation_sel = none ∧
    default_get_glyph_h_advance font glyph = 0 ∧
    default_get_glyph_v_advance font glyph = 0 ∧
    default_get_glyph_h_origin font glyph = none ∧
    default_get_glyph_v_origin font glyph = none ∧
    default_get_glyph_extents font glyph = none ∧
    default_get_glyph_contour_point font glyph point_index = none ∧
    default_get_glyph_name font glyph = none ∧
    default_get_glyph_from_name font name = none := by
  obtain ⟨xs, ys, p⟩ := font
  change p = none at h
  subst h
  exact ⟨rfl, rfl, rfl, rfl, rfl, rfl, rfl, rfl, rfl, rfl, rfl, rfl⟩

/-- Witness for C2 at a concrete orphan font. -/
theorem orphan_font_defaults_give_no_data_witness :
    default_get_font_h_extents ⟨2048, 1024, none⟩ = none ∧
    default_get_glyph_h_advance ⟨2048, 1024, none⟩ 12 = 0 := by
  have h := orphan_font_defaults_give_no_data ⟨2048, 1024, none⟩ rfl
    ⟨65, by decide⟩ ⟨66, by decide⟩ 12 0 "ab"
  exact ⟨h.1, h.2.2.2.2.1⟩

/-- C1: a panic inside the user closure is caught by the barrier of every
marshaling thunk, which then returns the default sentinel of its return
kind (`0` for the boolean-sentinel kinds and `0` for the
`Position`-returning advance kind) with all out-parameters and the name
buffer untouched; since every thunk is a total function into its return
type, no unwind crosses the foreign boundary. -/
theorem thunks_contain_panics :
    rust_get_font_extents_closure .panicked = (0, none) ∧
    (∀ (closure : Char → ClosureResult (Option Glyph)) (unicode : Nat),
      (∀ c, closure c = .panicked) →
      rust_get_nominal_glyph_closure closure unicode = (0, none)) ∧
    (∀ (closure : Char → Char → ClosureResult (Option Glyph)) (u v : Nat),
      (∀ c d, closure c d = .panicked) →
      rust_get_variation_glyph_closure closure u v = (0, none)) ∧
    rust_get_glyph_advance_closure .panicked = 0 ∧
    rust_get_glyph_origin_closure .panicked = (0, none) ∧
    rust_get_glyph_extents_closure .panicked = (0, none) ∧
    rust_get_glyph_contour_point_closure .panicked = (0, none) ∧
    (∀ buf : List Nat, rust_get_glyph_name_closure buf .panicked = (0, buf)) ∧
    (∀ (closure : List Nat → ClosureResult (Option Glyph)) (mem : List Nat) (size : Int),
      (∀ s, closure s = .panicked) →
      rust_get_glyph_from_name_closure closure mem size = (0, none)) := by
  refine ⟨rfl, ?_, ?_, rfl, rfl, rfl, rfl, fun _ => rfl, ?_⟩
  · intro closure unicode h
    unfold rust_get_nominal_glyph_closure
    cases char_from_u32 unicode with
    | none => rfl
    | some c =>
      show encode_glyph_result (closure c) = (0, none)
      rw [h c]
      rfl
  · intro closure u v h
    unfold rust_get_variation_glyph_closure
    cases char_from_u32 u with
    | none => rfl
    | some c =>
      cases char_from_u32 v with
      | none => rfl
      | some d =>
        show encode_glyph_result (closure c d) = (0, none)
        rw [h c d]
        rfl
  · intro closure mem size h
    unfold rust_get_glyph_from_name_closure
    dsimp only
    split
    · rfl
    · rename_i s hs
      rw [h s]
      rfl

/-- Witness for C1: always-panicking closures at concrete query inputs. -/
theorem thunks_contain_panics_witness :
    rust_get_nominal_glyph_closure (fun _ => .panicked) 65 = (0, none) ∧
    rust_get_variation_glyph_closure (fun _ _ => .panicked) 65 0xFE00 = (0, none) ∧
    rust_get_glyph_name_closure [7, 7] .panicked = (0, [7, 7]) ∧
    rust_get_glyph_from_name_closure (fun _ => .panicked) [97] 1 = (0, none) :=
  ⟨thunks_contain_panics.2.1 _ 65 fun _ => rfl,
   thunks_contain_panics.2.2.1 _ 65 0xFE00 fun _ _ => rfl,
   thunks_contain_panics.2.2.2.2.2.2.2.1 [7, 7],
   thunks_contain_panics.2.2.2.2.2.2.2.2 _ [97] 1 fun _ => rfl⟩

/-- C10: a `u32` argument that is not a Unicode scalar value (a surrogate
or a value above `0x10FFFF`) makes the nominal-glyph thunk, and the
variation-glyph thunk in either argument position, return the "no data"
sentinel `0` without invoking the installed closure at all (the result is
the same for every closure, and no out-parameter is written). -/
theorem invalid_codepoint_rejected (u : Nat)
    (hu : (0xD800 ≤ u ∧ u ≤ 0xDFFF) ∨ 0x10FFFF < u) :
    (∀ closure, rust_get_nominal_glyph_closure closure u = (0, none)) ∧
    (∀ closure v, rust_get_variation_glyph_closure closure u v = (0, none)) ∧
    (∀ closure w, rust_get_variation_glyph_closure closure w u = (0, none)) := by
  have hvalid : ¬ u.isValidChar := by
    unfold Nat.isValidChar
    omega
  have hnone : char_from_u32 u = none := by
    unfold char_from_u32
    exact dif_neg hvalid
  refine ⟨?_, ?_, ?_⟩
  · intro closure
    unfold rust_get_nominal_glyph_closure
    rw [hnone]
  · intro closure v
    unfold rust_get_variation_glyph_closure
    rw [hnone]
  · intro closure w
    unfold rust_get_variation_glyph_closure
    cases char_from_u32 w with
    | none => rfl
    | some c => rw [hnone]

/-- Witness for C10 at the surrogate `0xD800` and at `0x110000`. -/
theorem invalid_codepoint_rejected_witness :
    rust_get_nominal_glyph_closure (fun _ => .ok (some 5)) 0xD800 = (0, none) ∧
    rust_get_variation_glyph_closure (fun _ _ => .ok (some 5)) 0xD800 0xFE00 = (0, none) ∧
    rust_get_variation_glyph_closure (fun _ _ => .ok (some 5)) 97 0x110000 = (0, none) :=
  ⟨(invalid_codepoint_rejected 0xD800 (Or.inl (by decide))).1 _,
   (invalid_codepoint_rejected 0xD800 (Or.inl (by decide))).2.1 _ 0xFE00,
   (invalid_codepoint_rejected 0x110000 (Or.inr (by decide))).2.2 _ 97⟩

/-- C6: the glyph-from-name thunk dispatches on its size parameter:
size `-1` parses the memory as a null-terminated string (the bytes before
the first nul), size `≥ 1` parses exactly `size` bytes, and any other
size (`0` or `≤ -2`) makes it return the "no data" sentinel `0` without
invoking the closure (the result is the same for every closure and no
out-parameter is written).  In the first two cases the closure is invoked
on exactly the parsed bytes when they are valid UTF-8, and the thunk
returns `0` otherwise. -/
theorem glyph_from_name_size_dispatch (closure : List Nat → ClosureResult (Option Glyph))
    (mem : List Nat) :
    (rust_get_glyph_from_name_closure closure mem (-1) =
      if isValidUtf8 (cstr_bytes mem) then encode_glyph_result (closure (cstr_bytes mem))
      else (0, none)) ∧
    (∀ n : Nat, 1 ≤ n →
      rust_get_glyph_from_name_closure closure mem (n : Int) =
        if isValidUtf8 (mem.take n) then encode_glyph_result (closure (mem.take n))
        else (0, none)) ∧
    (∀ size : Int, size = 0 ∨ size ≤ -2 →
      rust_get_glyph_from_name_closure closure mem size = (0, none)) := by
  refine ⟨?_, ?_, ?_⟩
  · unfold rust_get_glyph_from_name_closure
    dsimp only
    rw [if_pos rfl]
    cases h : isValidUtf8 (cstr_bytes mem) <;> simp [h]
  · intro n hn
    unfold rust_get_glyph_from_name_closure
    dsimp only
    rw [if_neg (by omega), if_pos (by omega), Int.toNat_natCast]
    cases h : isValidUtf8 (mem.take n) <;> simp [h]
  · intro size hsize
    unfold rust_get_glyph_from_name_closure
    dsimp only
    rw [if_neg (by omega), if_neg (by omega)]

/-- Witness for C6: a one-byte name at explicit size `1`, at size `-1`
with a nul terminator, and at the rejected sizes `0` and `-2`. -/
theorem glyph_from_name_size_dispatch_witness :
    rust_get_glyph_from_name_closure (fun s => .ok (some s.length)) [97] ((1 : Nat) : Int) =
      (1, some 1) ∧
    rust_get_glyph_from_name_closure (fun s => .ok (some s.length)) [97, 0, 98] (-1) =
      (1, some 1) ∧
    rust_get_glyph_from_name_closure (fun s => .ok (some s.length)) [97] 0 = (0, none) ∧
    rust_get_glyph_from_name_closure (fun s => .ok (some s.length)) [97] (-2) = (0, none) := by
  refine ⟨?_, ?_, ?_, ?_⟩
  · have h := (glyph_from_name_size_dispatch (fun s => .ok (some s.length)) [97]).2.1 1
      (by decide)
    exact h.trans (by decide)
  · have h := (glyph_from_name_size_dispatch (fun s => .ok (some s.length)) [97, 0, 98]).1
    exact h.trans (by decide)
  · exact (glyph_from_name_size_dispatch (fun s => .ok (some s.length)) [97]).2.2 0
      (Or.inl rfl)
  · exact (glyph_from_name_size_dispatch (fun s => .ok (some s.length)) [97]).2.2 (-2)
      (Or.inr (by decide))

/-- C7: the table built by `from_trait_impl` populates every one of the
12 slots, and invoking each installed callback with (font, data, query
arguments) produces exactly the result of calling the corresponding
`FontFuncs` trait method on the data with the same arguments. -/
theorem from_trait_impl_forwards (T : Type) [FontFuncs T] (font : Font) (data : T)
    (chr var : Char) (glyph : Glyph) (index : Nat) (name : String) :
    ((FontFuncsImpl.from_trait_impl T).font_h_extents_func.map fun f => f font data) =
      some (FontFuncs.get_font_h_extents data font) ∧
    ((FontFuncsImpl.from_trait_impl T).font_v_extents_func.map fun f => f font data) =
      some (FontFuncs.get_font_v_extents data font) ∧
    ((FontFuncsImpl.from_trait_impl T).nominal_glyph_func.map fun f => f font data chr) =
      some (FontFuncs.get_nominal_glyph data font chr) ∧
    ((FontFuncsImpl.from_trait_impl T).variation_glyph_func.map fun f => f font data chr var) =
      some (FontFuncs.get_variation_glyph data font chr var) ∧
    ((FontFuncsImpl.from_trait_impl T).glyph_h_advance_func.map fun f => f font data glyph) =
      some (FontFuncs.get_glyph_h_advance data font glyph) ∧
    ((FontFuncsImpl.from_trait_impl T).glyph_v_advance_func.map fun f => f font data glyph) =
      some (FontFuncs.get_glyph_v_advance data font glyph) ∧
    ((FontFuncsImpl.from_trait_impl T).glyph_h_origin_func.map fun f => f font data glyph) =
      some (FontFuncs.get_glyph_h_origin data font glyph) ∧
    ((FontFuncsImpl.from_trait_impl T).glyph_v_origin_func.map fun f => f font data glyph) =
      some (FontFuncs.get_glyph_v_origin data font glyph) ∧
    ((FontFuncsImpl.from_trait_impl T).glyph_extents_func.map fun f => f font data glyph) =
      some (FontFuncs.get_glyph_extents data font glyph) ∧
    ((FontFuncsImpl.from_trait_impl T).glyph_contour_point_func.map
        fun f => f font data glyph index) =
      some (FontFuncs.get_glyph_contour_point data font glyph index) ∧
    ((FontFuncsImpl.from_trait_impl T).glyph_name_func.map fun f => f font data glyph) =
      some (FontFuncs.get_glyph_name data font glyph) ∧
    ((FontFuncsImpl.from_trait_impl T).glyph_from_name_func.map fun f => f font data name) =
      some (FontFuncs.get_glyph_from_name data font name) :=
  ⟨rfl, rfl, rfl, rfl, rfl, rfl, rfl, rfl, rfl, rfl, rfl, rfl⟩

/-- Unit data type relying on every default trait body, for the C7
witness. -/
instance : FontFuncs Unit := {}

/-- Witness for C7 at the unit data type: the installed h-advance slot of
the trait-built table forwards to the trait method. -/
theorem from_trait_impl_forwards_witness :
    ((FontFuncsImpl.from_trait_impl Unit).glyph_h_advance_func.map
        fun f => f ⟨1, 1, none⟩ () 3) =
      some (FontFuncs.get_glyph_h_advance () ⟨1, 1, none⟩ 3) :=
  (from_trait_impl_forwards Unit ⟨1, 1, none⟩ () (Char.ofNat 97) (Char.ofNat 98)
    3 0 "x").2.2.2.2.1

/-- C8: each of the 12 slot setters changes only its own slot.  For every
setter, the written slot afterwards holds exactly the supplied closure,
and restoring that single slot field to its old value recovers the
original table — so each of the other 11 slots is identical (hence
behaves identically, including following the default parent-delegating
rule when it is unset) before and after the call. -/
theorem setters_touch_only_their_slot (T : Type) (ffuncs : FontFuncsImpl T) :
    (∀ f, (ffuncs.set_font_h_extents_func f).font_h_extents_func = some f ∧
      { ffuncs.set_font_h_extents_func f with
        font_h_extents_func := ffuncs.font_h_extents_func } = ffuncs) ∧
    (∀ f, (ffuncs.set_font_v_extents_func f).font_v_extents_func = some f ∧
      { ffuncs.set_font_v_extents_func f with
        font_v_extents_func := ffuncs.font_v_extents_func } = ffuncs) ∧
    (∀ f, (ffuncs.set_nominal_glyph_func f).nominal_glyph_func = some f ∧
      { ffuncs.set_nominal_glyph_func f with
        nominal_glyph_func := ffuncs.nominal_glyph_func } = ffuncs) ∧
    (∀ f, (ffuncs.set_variation_glyph_func f).variation_glyph_func = some f ∧
      { ffuncs.set_variation_glyph_func f with
        variation_glyph_func := ffuncs.variation_glyph_func } = ffuncs) ∧
    (∀ f, (ffuncs.set_glyph_h_advance_func f).glyph_h_advance_func = some f ∧
      { ffuncs.set_glyph_h_advance_func f with
        glyph_h_advance_func := ffuncs.glyph_h_advance_func } = ffuncs) ∧
    (∀ f, (ffuncs.set_glyph_v_advance_func f).glyph_v_advance_func = some f ∧
      { ffuncs.set_glyph_v_advance_func f with
        glyph_v_advance_func := ffuncs.glyph_v_advance_func } = ffuncs) ∧
    (∀ f, (ffuncs.set_glyph_h_origin_func f).glyph_h_origin_func = some f ∧
      { ffuncs.set_glyph_h_origin_func f with
        glyph_h_origin_func := ffuncs.glyph_h_origin_func } = ffuncs) ∧
    (∀ f, (ffuncs.set_glyph_v_origin_func f).glyph_v_origin_func = some f ∧
      { ffuncs.set_glyph_v_origin_func f with
        glyph_v_origin_func := ffuncs.glyph_v_origin_func } = ffuncs) ∧
    (∀ f, (ffuncs.set_glyph_extents_func f).glyph_extents_func = some f ∧
      { ffuncs.set_glyph_extents_func f with
        glyph_extents_func := ffuncs.glyph_extents_func } = ffuncs) ∧
    (∀ f, (ffuncs.set_glyph_contour_point_func f).glyph_contour_point_func = some f ∧
      { ffuncs.set_glyph_contour_point_func f with
        glyph_contour_point_func := ffuncs.glyph_contour_point_func } = ffuncs) ∧
    (∀ f, (ffuncs.set_glyph_name_func f).glyph_name_func = some f ∧
      { ffuncs.set_glyph_name_func f with
        glyph_name_func := ffuncs.glyph_name_func } = ffuncs) ∧
    (∀ f, (ffuncs.set_glyph_from_name_func f).glyph_from_name_func = some f ∧
      { ffuncs.set_glyph_from_name_func f with
        glyph_from_name_func := ffuncs.glyph_from_name_func } = ffuncs) :=
  ⟨fun _ => ⟨rfl, rfl⟩, fun _ => ⟨rfl, rfl⟩, fun _ => ⟨rfl, rfl⟩, fun _ => ⟨rfl, rfl⟩,
   fun _ => ⟨rfl, rfl⟩, fun _ => ⟨rfl, rfl⟩, fun _ => ⟨rfl, rfl⟩, fun _ => ⟨rfl, rfl⟩,
   fun _ => ⟨rfl, rfl⟩, fun _ => ⟨rfl, rfl⟩, fun _ => ⟨rfl, rfl⟩, fun _ => ⟨rfl, rfl⟩⟩

/-- Exactness of integer multiply-then-divide under a divisibility
hypothesis, stated over ℚ. -/
lemma intCast_mul_div_of_dvd (a c b : Int) (hb : b ≠ 0) (h : b ∣ a * c) :
    ((a * c / b : Int) : ℚ) = (a : ℚ) * ((c : ℚ) / (b : ℚ)) := by
  obtain ⟨k, hk⟩ := h
  rw [hk, Int.mul_ediv_cancel_left _ hb]
  have hq : (a : ℚ) * (c : ℚ) = (b : ℚ) * (k : ℚ) := by
    exact_mod_cast congrArg (Int.cast : Int → ℚ) hk
  have hb' : (b : ℚ) ≠ 0 := Int.cast_ne_zero.mpr hb
  field_simp
  linear_combination -hq

/-- C3: when the default `get_font_h_extents` delegates to a parent that
reports extents `e`, the child's ascender, descender and line gap are
each exactly `e`-value times the y-axis scale ratio (as rational
numbers, under the divisibility hypotheses that make the fixed-point
result representable); and the default `get_glyph_extents` scales
componentwise, x_bearing and width by the x-axis ratio, y_bearing and
height by the y-axis ratio. -/
theorem parent_delegation_scales_exactly (font : Font) (p : ParentFont) (e : FontExtents)
    (ge : GlyphExtents) (glyph : Glyph)
    (hp : font.parent = some p)
    (hx : p.x_scale ≠ 0) (hy : p.y_scale ≠ 0)
    (he : p.queries.font_h_extents = some e)
    (hg : p.queries.glyph_extents glyph = some ge)
    (d1 : p.y_scale ∣ e.ascender * font.y_scale)
    (d2 : p.y_scale ∣ e.descender * font.y_scale)
    (d3 : p.y_scale ∣ e.line_gap * font.y_scale)
    (d4 : p.x_scale ∣ ge.x_bearing * font.x_scale)
    (d5 : p.y_scale ∣ ge.y_bearing * font.y_scale)
    (d6 : p.x_scale ∣ ge.width * font.x_scale)
    (d7 : p.y_scale ∣ ge.height * font.y_scale) :
    (∃ e', default_get_font_h_extents font = some e' ∧
      (e'.ascender : ℚ) = (e.ascender : ℚ) * ((font.y_scale : ℚ) / (p.y_scale : ℚ)) ∧
      (e'.descender : ℚ) = (e.descender : ℚ) * ((font.y_scale : ℚ) / (p.y_scale : ℚ)) ∧
      (e'.line_gap : ℚ) = (e.line_gap : ℚ) * ((font.y_scale : ℚ) / (p.y_scale : ℚ))) ∧
    (∃ g', default_get_glyph_extents font glyph = some g' ∧
      (g'.x_bearing : ℚ) = (ge.x_bearing : ℚ) * ((font.x_scale : ℚ) / (p.x_scale : ℚ)) ∧
      (g'.y_bearing : ℚ) = (ge.y_bearing : ℚ) * ((font.y_scale : ℚ) / (p.y_scale : ℚ)) ∧
      (g'.width : ℚ) = (ge.width : ℚ) * ((font.x_scale : ℚ) / (p.x_scale : ℚ)) ∧
      (g'.height : ℚ) = (ge.height : ℚ) * ((font.y_scale : ℚ) / (p.y_scale : ℚ))) := by
  have hmy : ∀ v : Position,
      font.parent_scale_y_distance (fun _ => v) = v * font.y_scale / p.y_scale := by
    intro v
    unfold Font.parent_scale_y_distance
    rw [hp]
  have hmx : ∀ v : Position,
      font.parent_scale_x_distance (fun _ => v) = v * font.x_scale / p.x_scale := by
    intro v
    unfold Font.parent_scale_x_distance
    rw [hp]
  constructor
  · refine ⟨⟨e.ascender * font.y_scale / p.y_scale, e.descender * font.y_scale / p.y_scale,
      e.line_gap * font.y_scale / p.y_scale⟩, ?_, ?_, ?_, ?_⟩
    · unfold default_get_font_h_extents
      rw [hp]
      show (p.queries.font_h_extents.map _) = _
      rw [he]
      show some _ = some _
      dsimp only
      rw [hmy e.ascender, hmy e.descender, hmy e.line_gap]
    · exact intCast_mul_div_of_dvd e.ascender font.y_scale p.y_scale hy d1
    · exact intCast_mul_div_of_dvd e.descender font.y_scale p.y_scale hy d2
    · exact intCast_mul_div_of_dvd e.line_gap font.y_scale p.y_scale hy d3
  · refine ⟨⟨ge.x_bearing * font.x_scale / p.x_scale, ge.y_bearing * font.y_scale / p.y_scale,
      ge.width * font.x_scale / p.x_scale, ge.height * font.y_scale / p.y_scale⟩,
      ?_, ?_, ?_, ?_, ?_⟩
    · unfold default_get_glyph_extents
      rw [hp]
      show ((p.queries.glyph_extents glyph).map _) = _
      rw [hg]
      show some _ = some _
      dsimp only
      rw [hmx ge.x_bearing, hmy ge.y_bearing, hmx ge.width, hmy ge.height]
    · exact intCast_mul_div_of_dvd ge.x_bearing font.x_scale p.x_scale hx d4
    · exact intCast_mul_div_of_dvd ge.y_bearing font.y_scale p.y_scale hy d5
    · exact intCast_mul_div_of_dvd ge.width font.x_scale p.x_scale hx d6
    · exact intCast_mul_div_of_dvd ge.height font.y_scale p.y_scale hy d7

/-- Concrete parent-query table used by the scaling witness: the parent
reports horizontal extents (100, -50, 10) and glyph extents
(4, 6, 8, 10), nothing else. -/
def sampleQueries : FontQueries where
  font_h_extents := some ⟨100, -50, 10⟩
  font_v_extents := none
  nominal_glyph := fun _ => none
  variation_glyph := fun _ _ => none
  glyph_h_advance := fun _ => 0
  glyph_v_advance := fun _ => 0
  glyph_h_origin := fun _ => none
  glyph_v_origin := fun _ => none
  glyph_extents := fun _ => some ⟨4, 6, 8, 10⟩
  glyph_contour_point := fun _ _ => none
  glyph_name := fun _ => none
  glyph_from_name := fun _ => none

/-- Concrete parent font with unit-per-em scales 1000 on both axes. -/
def sampleParent : ParentFont := ⟨1000, 1000, sampleQueries⟩

/-- Concrete child font with x scale 2000 and y scale 3000. -/
def sampleFont : Font := ⟨2000, 3000, some sampleParent⟩

/-- Witness for C3 at the concrete child/parent pair: the y ratio is 3
and the parent ascender 100 scales exactly to 300. -/
theorem parent_delegation_scales_exactly_witness :
    ∃ e', default_get_font_h_extents sampleFont = some e' ∧
      (e'.ascender : ℚ) = ((100 : Int) : ℚ) * (((3000 : Int) : ℚ) / ((1000 : Int) : ℚ)) := by
  obtain ⟨⟨e', h1, h2, _, _⟩, _⟩ := parent_delegation_scales_exactly sampleFont sampleParent
    ⟨100, -50, 10⟩ ⟨4, 6, 8, 10⟩ 3 rfl (by decide) (by decide) rfl rfl
    ⟨300, by decide⟩ ⟨-150, by decide⟩ ⟨30, by decide⟩
    ⟨8, by decide⟩ ⟨18, by decide⟩ ⟨16, by decide⟩ ⟨30, by decide⟩
  exact ⟨e', h1, h2⟩

/-- Folding the variation-insertion step over a list with no matching tag
leaves the accumulator unchanged. -/
lemma foldl_lookup_no_match (l : List Variation) (t : Nat) (acc : Option Int)
    (h : ∀ w ∈ l, w.tag ≠ t) :
    l.foldl (fun acc v => if v.tag = t then some v.value else acc) acc = acc := by
  induction l generalizing acc with
  | nil => rfl
  | cons v l ih =>
    rw [List.foldl_cons, if_neg (h v (List.mem_cons_self v l))]
    exact ih acc fun w hw => h w (List.mem_cons_of_mem v hw)

/-- Folding the variation-insertion step over a list in which some entry
matches the tag, and every matching entry carries the same value, yields
that value. -/
lemma foldl_lookup_match : ∀ (l : List Variation) (t : Nat) (val : Int) (acc : Option Int),
    (∃ w ∈ l, w.tag = t) → (∀ w ∈ l, w.tag = t → w.value = val) →
    l.foldl (fun acc v => if v.tag = t then some v.value else acc) acc = some val := by
  intro l t val
  induction l with
  | nil =>
    intro acc hex _
    obtain ⟨w, hw, _⟩ := hex
    cases hw
  | cons v l ih =>
    intro acc hex hall
    rw [List.foldl_cons]
    by_cases hv : v.tag = t
    · rw [if_pos hv]
      by_cases hl : ∃ w ∈ l, w.tag = t
      · exact ih _ hl fun w hw hwt => hall w (List.mem_cons_of_mem v hw) hwt
      · push_neg at hl
        rw [foldl_lookup_no_match l t _ hl, hall v (List.mem_cons_self v l) hv]
    · rw [if_neg hv]
      obtain ⟨w, hw, hwt⟩ := hex
      rcases List.mem_cons.mp hw with h1 | h2
      · exact absurd (h1 ▸ hwt) hv
      · exact ih _ ⟨w, h2, hwt⟩ fun w' hw' hwt' => hall w' (List.mem_cons_of_mem v hw') hwt'

/-- Hash-map semantics of `variationsLookup`: a uniquely valued matching
entry determines the result. -/
lemma variationsLookup_of_unique_match (variations : List Variation) (t : Nat) (v : Variation)
    (hv : v ∈ variations) (hvt : v.tag = t)
    (hall : ∀ w ∈ variations, w.tag = t → w.value = v.value) :
    variationsLookup variations t = some v.value :=
  foldl_lookup_match variations t v.value none ⟨v, hv, hvt⟩ hall

/-- Hash-map semantics of `variationsLookup`: no matching entry means no
result. -/
lemma variationsLookup_of_no_match (variations : List Variation) (t : Nat)
    (h : ∀ w ∈ variations, w.tag ≠ t) :
    variationsLookup variations t = none :=
  foldl_lookup_no_match variations t none h

/-- Inserting a variation whose tag differs from the queried tag anywhere
in the list does not change the lookup. -/
lemma variationsLookup_insert_irrelevant (l1 l2 : List Variation) (w : Variation) (t : Nat)
    (h : w.tag ≠ t) :
    variationsLookup (l1 ++ w :: l2) t = variationsLookup (l1 ++ l2) t := by
  unfold variationsLookup
  rw [List.foldl_append, List.foldl_append, List.foldl_cons, if_neg h]

/-- C5: for every axis of the source face, a caller-supplied Variation
with that axis's tag makes the subset configuration pin the axis to the
supplied value; an axis whose tag matches no supplied Variation is pinned
to its declared default value; and a supplied Variation whose tag matches
no axis of the face has no effect on the pinned configuration. -/
theorem axis_pinning_rule (axes : List AxisInfo) (variations : List Variation) :
    (∀ axis ∈ axes, ∀ v ∈ variations, v.tag = axis.tag →
      (∀ w ∈ variations, w.tag = axis.tag → w.value = v.value) →
      (axis.tag, v.value) ∈ pinAxes axes variations) ∧
    (∀ axis ∈ axes, (∀ v ∈ variations, v.tag ≠ axis.tag) →
      (axis.tag, axis.default_value) ∈ pinAxes axes variations) ∧
    (∀ (w : Variation) (l1 l2 : List Variation), w.tag ∉ axes.map AxisInfo.tag →
      pinAxes axes (l1 ++ w :: l2) = pinAxes axes (l1 ++ l2)) := by
  refine ⟨?_, ?_, ?_⟩
  · intro axis ha v hv hvt hall
    unfold pinAxes
    refine List.mem_map.mpr ⟨axis, ha, ?_⟩
    rw [variationsLookup_of_unique_match variations axis.tag v hv hvt hall]
  · intro axis ha hno
    unfold pinAxes
    refine List.mem_map.mpr ⟨axis, ha, ?_⟩
    rw [variationsLookup_of_no_match variations axis.tag hno]
  · intro w l1 l2 hw
    unfold pinAxes
    refine List.map_congr_left fun axis ha => ?_
    have htag : w.tag ≠ axis.tag := by
      intro hcontra
      exact hw (hcontra ▸ List.mem_map_of_mem AxisInfo.tag ha)
    rw [variationsLookup_insert_irrelevant l1 l2 w axis.tag htag]

/-- Witness for C5: a face with axes 1 (default 5) and 2 (default 7), a
variation pinning axis 1 to 9, and an irrelevant variation on tag 3. -/
theorem axis_pinning_rule_witness :
    ((1 : Nat), (9 : Int)) ∈ pinAxes [⟨1, 5⟩, ⟨2, 7⟩] [⟨1, 9⟩] ∧
    ((2 : Nat), (7 : Int)) ∈ pinAxes [⟨1, 5⟩, ⟨2, 7⟩] [⟨1, 9⟩] ∧
    pinAxes [⟨1, 5⟩, ⟨2, 7⟩] ([] ++ ⟨3, 4⟩ :: [⟨1, 9⟩]) =
      pinAxes [⟨1, 5⟩, ⟨2, 7⟩] ([] ++ [⟨1, 9⟩]) :=
  ⟨(axis_pinning_rule [⟨1, 5⟩, ⟨2, 7⟩] [⟨1, 9⟩]).1 ⟨1, 5⟩ (by decide) ⟨1, 9⟩ (by decide)
      rfl (by decide),
   (axis_pinning_rule [⟨1, 5⟩, ⟨2, 7⟩] [⟨1, 9⟩]).2.1 ⟨2, 7⟩ (by decide) (by decide),
   (axis_pinning_rule [⟨1, 5⟩, ⟨2, 7⟩] [⟨1, 9⟩]).2.2 ⟨3, 4⟩ [] [⟨1, 9⟩] (by decide)⟩

/-- Native subsetter whose `hb_subset_or_fail` always fails (returns the
null pointer), on a face with no variation axes. -/
def failingNativeSubsetter : NativeSubsetter :=
  ⟨[], fun _ => none⟩

/-- C4 counterexample: on a native subsetter that fails, `subset` still
returns an ordinary byte-sequence outcome (the empty blob), not an
explicit error — so the claim that a native failure is surfaced as an
explicit error result, never a silently returned byte sequence, is false
at this input. -/
theorem subset_failure_silent_counterexample :
    failingNativeSubsetter.run
      { flags := [.retainGids, .nameLegacy, .glyphNames, .noPruneUnicodeRanges]
        glyphs := []
        pins := [] } = none ∧
    subset failingNativeSubsetter [] [] = SubsetOutcome.blob [] ∧
    subset failingNativeSubsetter [] [] ≠ SubsetOutcome.error :=
  ⟨rfl, rfl, fun h => SubsetOutcome.noConfusion h⟩

/-- C4 amended: when the native subsetting operation fails, `subset`
silently returns the empty blob; the operation never surfaces an explicit
error outcome — its result is a byte-sequence outcome for every input. -/
theorem subset_failure_is_silent (native : NativeSubsetter) (codepoints : List Nat)
    (variations : List Variation) :
    ((∀ input, native.run input = none) →
      subset native codepoints variations = SubsetOutcome.blob []) ∧
    (∃ bytes, subset native codepoints variations = SubsetOutcome.blob bytes) := by
  constructor
  · intro h
    unfold subset
    dsimp only
    rw [h]
    rfl
  · exact ⟨_, rfl⟩

/-- Witness for C4 amended at the always-failing native subsetter. -/
theorem subset_failure_is_silent_witness :
    subset failingNativeSubsetter [1] [] = SubsetOutcome.blob [] ∧
    ∃ bytes, subset failingNativeSubsetter [1] [] = SubsetOutcome.blob bytes :=
  ⟨(subset_failure_is_silent failingNativeSubsetter [1] []).1 fun _ => rfl,
   (subset_failure_is_silent failingNativeSubsetter [1] []).2⟩

/-- C9 counterexample: a one-byte name ("A") with a one-byte buffer.  The
name plus terminating nul does not fit, `write_all` fills the buffer with
the truncated name and advances the slice to empty, and the subsequent
`name[0] = 0` panics on the empty remainder (caught by the barrier).  The
thunk returns `0`, but the buffer holds the byte 65 — not a zero-length
(first byte 0) string as the claim states. -/
theorem glyph_name_overflow_counterexample :
    rust_get_glyph_name_closure [7] (ClosureResult.ok (some [65])) = (0, [65]) ∧
    (rust_get_glyph_name_closure [7] (ClosureResult.ok (some [65]))).2.head? ≠ some 0 := by
  exact ⟨rfl, by decide⟩

/-- C9 amended: the glyph-name thunk never writes outside the capacity
(the buffer keeps its length); on success the name is written followed by
a terminating nul and the thunk returns `1`; when the closure returns
`None` or the name contains an interior nul and the capacity is at least
1, the thunk returns `0` and sets the first byte to `0`; when the name
plus terminating nul exceeds the capacity the thunk returns `0` but the
buffer holds the truncated name prefix (not null-terminated, not
zero-length); with capacity `0` the thunk returns `0` and the (empty)
buffer is unchanged. -/
theorem glyph_name_write_behavior (buf : List Nat) (name : List Nat) :
    (∀ closure, (rust_get_glyph_name_closure buf closure).2.length = buf.length) ∧
    (name.contains 0 = false → name.length + 1 ≤ buf.length →
      rust_get_glyph_name_closure buf (.ok (some name)) =
        (1, name ++ 0 :: buf.drop (name.length + 1))) ∧
    (1 ≤ buf.length →
      rust_get_glyph_name_closure buf (.ok none) = (0, 0 :: buf.tail)) ∧
    (name.contains 0 = true → 1 ≤ buf.length →
      rust_get_glyph_name_closure buf (.ok (some name)) = (0, 0 :: buf.tail)) ∧
    (name.contains 0 = false → buf.length < name.length + 1 →
      rust_get_glyph_name_closure buf (.ok (some name)) =
        (0, (name ++ [0]).take buf.length)) ∧
    (∀ closure, rust_get_glyph_name_closure [] closure = (0, [])) := by
  have hsome : ∀ h : name.contains 0 = false,
      (some name).bind cstring_new_bytes = some (name ++ [0]) := by
    intro h
    show cstring_new_bytes name = _
    unfold cstring_new_bytes
    rw [h]
    rfl
  have hnul : ∀ h : name.contains 0 = true,
      (some name).bind cstring_new_bytes = none := by
    intro h
    show cstring_new_bytes name = _
    unfold cstring_new_bytes
    rw [h]
    rfl
  refine ⟨?_, ?_, ?_, ?_, ?_, ?_⟩
  · intro closure
    unfold rust_get_glyph_name_closure
    cases closure with
    | panicked => rfl
    | ok value =>
      cases hb : value.bind cstring_new_bytes with
      | some bytes =>
        simp only [hb]
        by_cases hlen : bytes.length ≤ buf.length
        · rw [if_pos hlen]
          simp only [List.length_append, List.length_drop]
          omega
        · rw [if_neg hlen]
          simp only [List.length_take]
          omega
      | none =>
        simp only [hb]
        cases buf with
        | nil => rfl
        | cons b rest => rfl
  · intro h1 h2
    unfold rust_get_glyph_name_closure
    simp only [hsome h1]
    rw [if_pos (by simp only [List.length_append, List.length_singleton]; omega)]
    rw [List.append_assoc]
    simp only [List.length_append, List.length_singleton]
    rfl
  · intro h
    unfold rust_get_glyph_name_closure
    have hbind : (none : Option (List Nat)).bind cstring_new_bytes = none := rfl
    simp only [hbind]
    cases buf with
    | nil => exact absurd h (by decide)
    | cons b rest => rfl
  · intro h1 h2
    unfold rust_get_glyph_name_closure
    simp only [hnul h1]
    cases buf with
    | nil => exact absurd h2 (by decide)
    | cons b rest => rfl
  · intro h1 h2
    unfold rust_get_glyph_name_closure
    simp only [hsome h1]
    rw [if_neg (by simp only [List.length_append, List.length_singleton]; omega)]
  · intro closure
    cases closure with
    | panicked => rfl
    | ok value =>
      cases value with
      | none => rfl
      | some s =>
        unfold rust_get_glyph_name_closure
        dsimp only
        have hred : (some s).bind cstring_new_bytes = cstring_new_bytes s := rfl
        rw [hred]
        unfold cstring_new_bytes
        by_cases hc : s.contains 0
        · rw [if_pos hc]
        · rw [if_neg hc]
          dsimp only
          rw [if_neg (by
            simp only [List.length_append, List.length_singleton, List.length_nil]
            omega)]
          rfl

/-- Witness for C9 amended: a fitting name, a `None` result, an
overflowing name, and a capacity-0 buffer, all at concrete inputs. -/
theorem glyph_name_write_behavior_witness :
    rust_get_glyph_name_closure [5, 5, 5] (.ok (some [65])) = (1, [65, 0, 5]) ∧
    rust_get_glyph_name_closure [5, 5, 5] (.ok none) = (0, [0, 5, 5]) ∧
    rust_get_glyph_name_closure [7] (.ok (some [66])) = (0, [66]) ∧
    rust_get_glyph_name_closure [] (.ok none) = (0, []) := by
  refine ⟨?_, ?_, ?_, ?_⟩
  · have h := (glyph_name_write_behavior [5, 5, 5] [65]).2.1 (by decide) (by decide)
    exact h.trans (by decide)
  · exact ((glyph_name_write_behavior [5, 5, 5] [65]).2.2.1 (by decide)).trans (by decide)
  · have h := (glyph_name_write_behavior [7] [66]).2.2.2.2.1 (by decide) (by decide)
    exact h.trans (by decide)
  · exact (glyph_name_write_behavior [] []).2.2.2.2.2 (.ok none)

end HB
